import Mathlib

/-!
Verification development for the `flask_rss_backend` repository (`src/app.py`).

The Python program aggregates content from a list of URLs into one RSS
document.  The shallow embedding below translates the pure logic of
`src/app.py` into Lean definitions:

* `is_xml_content` embeds `is_xml_content` (app.py lines 25-44): the bytes are
  decoded as UTF-8 with invalid bytes dropped (`bytes.decode('utf-8',
  errors='ignore')`), and the text is searched case-insensitively for the four
  signature patterns of the Python source.
* `XmlElement` models `xml.etree.ElementTree` elements; `findall_item` embeds
  `xml_root.findall('.//item')` (all descendants tagged `item`, in document
  order).
* `FPEntry` models a `feedparser` entry: each field is `none` when the key is
  absent (or `None`), mirroring `entry.get(...)`.
* External collaborators (the HTTP transport, the system clock, `uuid.uuid4`,
  `strftime`) enter through an explicit environment `Env`; the claims quantify
  over all environments.
* `generate_rss_feed`, `create_feed`, `secure_filename` and `get_feed` embed
  the functions of the same names (for `secure_filename`, the behaviour of
  `werkzeug.utils.secure_filename`; the NFKD/ascii step is modelled as
  dropping non-ASCII characters, which is exact on ASCII input and does not
  affect the stated properties, since the later character filter keeps only
  ASCII filename characters anyway).
-/

set_option maxRecDepth 16384

/-! ## Byte decoding: `bytes.decode('utf-8', errors='ignore')` -/

/-- Is a byte a UTF-8 continuation byte (0x80..0xBF)? -/
def isCont (b : Nat) : Bool := 0x80 ≤ b && b ≤ 0xBF

/-- Worker for `decodeLossy`.  The fuel argument (instantiated with the list
length) only drives structural recursion; every step consumes at least one
byte, so the fuel never runs out when it starts at the length. -/
def decodeLossyFuel : Nat → List Nat → List Char
  | 0, _ => []
  | _ + 1, [] => []
  | fuel + 1, b :: rest =>
    if b < 0x80 then Char.ofNat b :: decodeLossyFuel fuel rest
    else if 0xC2 ≤ b && b ≤ 0xDF then
      match rest with
      | [] => []
      | c1 :: rest2 =>
        if isCont c1 then
          Char.ofNat (((b - 0xC0) * 64) + (c1 - 0x80)) :: decodeLossyFuel fuel rest2
        else decodeLossyFuel fuel rest
    else if 0xE0 ≤ b && b ≤ 0xEF then
      match rest with
      | [] => []
      | c1 :: rest2 =>
        -- E0 requires A0..BF, ED requires 80..9F (no surrogates), else 80..BF
        if (isCont c1 &&
            (b ≠ 0xE0 || 0xA0 ≤ c1) &&
            (b ≠ 0xED || c1 ≤ 0x9F)) then
          match rest2 with
          | [] => []
          | c2 :: rest3 =>
            if isCont c2 then
              Char.ofNat (((b - 0xE0) * 4096) + ((c1 - 0x80) * 64) + (c2 - 0x80))
                :: decodeLossyFuel fuel rest3
            else decodeLossyFuel fuel rest2
        else decodeLossyFuel fuel rest
    else if 0xF0 ≤ b && b ≤ 0xF4 then
      match rest with
      | [] => []
      | c1 :: rest2 =>
        -- F0 requires 90..BF, F4 requires 80..8F, else 80..BF
        if (isCont c1 &&
            (b ≠ 0xF0 || 0x90 ≤ c1) &&
            (b ≠ 0xF4 || c1 ≤ 0x8F)) then
          match rest2 with
          | [] => []
          | c2 :: rest3 =>
            if isCont c2 then
              match rest3 with
              | [] => []
              | c3 :: rest4 =>
                if isCont c3 then
                  Char.ofNat (((b - 0xF0) * 262144) + ((c1 - 0x80) * 4096) +
                      ((c2 - 0x80) * 64) + (c3 - 0x80)) :: decodeLossyFuel fuel rest4
                else decodeLossyFuel fuel rest3
            else decodeLossyFuel fuel rest2
        else decodeLossyFuel fuel rest
    else decodeLossyFuel fuel rest

/-- Lossy UTF-8 decoding: invalid bytes are dropped and decoding resumes at
the next byte, as Python's `errors='ignore'` does.  Total on every byte
list. -/
def decodeLossy (bs : List Nat) : List Char := decodeLossyFuel bs.length bs

/-! ## The classifier `is_xml_content` (app.py lines 25-44) -/

/-- ASCII lowercasing, modelling `re.IGNORECASE` on the ASCII patterns of the
source (both pattern and text are compared lowercased). -/
def lowerChar (c : Char) : Char :=
  if 'A' ≤ c && c ≤ 'Z' then Char.ofNat (c.toNat + 32) else c

/-- Python's regex `\w` on the characters relevant here: letters, digits and
underscore. -/
def isWordChar (c : Char) : Bool := c.isAlphanum || c = '_'

/-- Generic regex-search driver: does the per-position check `p` succeed on
some suffix of the text (like `re.search`, every start offset is tried)? -/
def searchBy (p : List Char → Bool) : List Char → Bool
  | [] => p []
  | c :: rest => p (c :: rest) || searchBy p rest

/-- `\b` after a pattern ending in a word character: the next character is
absent or not a word character. -/
def wbAfter : List Char → Bool
  | [] => true
  | c :: _ => !(isWordChar c)

/-- The per-position check of the patterns `<rss\b`, `<feed\b`, `<channel\b`:
the literal pattern occurs here, followed by a word boundary. -/
def checkTag (pat suf : List Char) : Bool :=
  pat.isPrefixOf suf && wbAfter (suf.drop pat.length)

/-- Scanner for the tail of `<\?xml.*\?>`: after the opening literal, a `?>`
must occur further on with no newline in between (`.` does not match
newlines). -/
def hasCloseNoNL : List Char → Bool
  | [] => false
  | c :: rest =>
    if ['?', '>'].isPrefixOf (c :: rest) then true
    else if c = '\n' then false
    else hasCloseNoNL rest

/-- The per-position check of the pattern `<\?xml.*\?>`. -/
def checkProlog (suf : List Char) : Bool :=
  ['<', '?', 'x', 'm', 'l'].isPrefixOf suf && hasCloseNoNL (suf.drop 5)

/-- Embedding of `is_xml_content` (app.py lines 25-44): decode the bytes
lossily, then search, case-insensitively, for any of the four signature
patterns `<\?xml.*\?>`, `<rss\b`, `<feed\b`, `<channel\b`. -/
def is_xml_content (bs : List Nat) : Bool :=
  let s := (decodeLossy bs).map lowerChar
  searchBy checkProlog s ||
  searchBy (checkTag ['<', 'r', 's', 's']) s ||
  searchBy (checkTag ['<', 'f', 'e', 'e', 'd']) s ||
  searchBy (checkTag ['<', 'c', 'h', 'a', 'n', 'n', 'e', 'l']) s

/-! Specification-side signature predicates (from the spec's words in §4.1:
"matches it, case-insensitively, against a fixed set of structural
signatures"), to be compared with the executable classifier. -/

/-- The literal `pat` occurs in `s` at offset `i`. -/
def OccursAt (pat s : List Char) (i : Nat) : Prop := pat <+: s.drop i

/-- Position `k` of `s` is absent or holds a non-word character. -/
def NonWordAt (s : List Char) (k : Nat) : Prop :=
  ∀ c, s[k]? = some c → isWordChar c = false

/-- Spec-side reading of the tag signatures: the literal occurs somewhere,
followed by a word boundary. -/
def TagSignature (pat s : List Char) : Prop :=
  ∃ i, OccursAt pat s i ∧ NonWordAt s (i + pat.length)

/-- Spec-side reading of the XML-prolog signature: `<?xml` occurs at some
`i`, and `?>` occurs at some `j` at least five places later, with no newline
strictly between the end of `<?xml` and `j`. -/
def PrologSignature (s : List Char) : Prop :=
  ∃ i j, OccursAt ['<', '?', 'x', 'm', 'l'] s i ∧ OccursAt ['?', '>'] s j ∧
    i + 5 ≤ j ∧ ∀ k, i + 5 ≤ k → k < j → s[k]? ≠ some '\n'

/-! ## The `xml.etree.ElementTree` element model -/

mutual
/-- An `ElementTree` element: tag, attributes, text, and child elements. -/
inductive XmlElement where
  | mk (tag : String) (attrs : List (String × String)) (text : Option String)
       (children : XmlList)
/-- Children of an element (a specialised list, so that all recursion over
the tree is structural). -/
inductive XmlList where
  | nil
  | cons (head : XmlElement) (tail : XmlList)
end

def XmlElement.tag : XmlElement → String
  | .mk t _ _ _ => t

def XmlElement.text : XmlElement → Option String
  | .mk _ _ tx _ => tx

def XmlElement.children : XmlElement → XmlList
  | .mk _ _ _ ch => ch

/-- Build an `XmlList` from an ordinary list. -/
def XmlList.ofList : List XmlElement → XmlList
  | [] => .nil
  | x :: xs => .cons x (XmlList.ofList xs)

/-- Convenience element constructor. -/
def el (tag : String) (attrs : List (String × String)) (text : Option String)
    (children : List XmlElement) : XmlElement :=
  .mk tag attrs text (XmlList.ofList children)

mutual
/-- Embedding of `xml_root.findall('.//item')` (app.py line 126): every
descendant element tagged `item`, in document order (the root itself is not a
candidate, matching ElementTree). -/
def findall_item : XmlElement → List XmlElement
  | .mk _ _ _ ch => findall_itemL ch
def findall_itemL : XmlList → List XmlElement
  | .nil => []
  | .cons c cs =>
    (if c.tag == "item" then [c] else []) ++ findall_item c ++ findall_itemL cs
end

mutual
/-- All descendant elements of an element, in document order (excluding the
element itself). -/
def descendants : XmlElement → List XmlElement
  | .mk _ _ _ ch => descendantsL ch
def descendantsL : XmlList → List XmlElement
  | .nil => []
  | .cons c cs => c :: (descendants c ++ descendantsL cs)
end

/-- Text of the first direct child with the given tag (`none` when no such
child exists or it carries no text). -/
def findChildTextL (tag : String) : XmlList → Option String
  | .nil => none
  | .cons c cs => if c.tag == tag then c.text else findChildTextL tag cs

/-- Text of the first direct child of an element with the given tag. -/
def findChildText (tag : String) (x : XmlElement) : Option String :=
  findChildTextL tag x.children

/-! ## The feedparser entry model and the environment -/

/-- The six leading fields of a Python `struct_time`, as consumed by
`datetime.datetime(*pub_date[:6])` (app.py line 152). -/
structure Time6 where
  year : Nat
  month : Nat
  day : Nat
  hour : Nat
  minute : Nat
  second : Nat
deriving DecidableEq, Repr

/-- A `feedparser` entry as consumed by app.py lines 136-167.  A field is
`none` when `entry.get(key)` would yield no value (key absent or `None`);
`some ""` is a present-but-empty field. -/
structure FPEntry where
  title : Option String
  link : Option String
  description : Option String
  published_parsed : Option Time6
  updated_parsed : Option Time6
deriving DecidableEq, Repr

/-- What one URL yields when fetched successfully: the raw bytes, the result
of `ET.fromstring` on them (`none` models a raised `ParseError`), and the
entry list produced by `feedparser.parse` (feedparser does not raise; on
non-feed input it yields an empty or partial entry list). -/
structure Content where
  bytes : List Nat
  xmlParse : Option XmlElement
  fpEntries : List FPEntry

/-- The external collaborators of `generate_rss_feed`: the HTTP transport
(`fetch url = none` models a timeout, connection error or the exception from
`raise_for_status` on a non-2xx response), the formatted current time
(`nowGMT` for the `'... GMT'` format of lines 66 and 105, `now0000` for the
`'... +0000'` format of line 155), the `strftime` rendering of a parsed entry
date (`fmt0000`), and the two `uuid.uuid4()` draws of one call (the
placeholder guid of line 71 and the output filename of line 182). -/
structure Env where
  fetch : String → Option Content
  nowGMT : String
  now0000 : String
  fmt0000 : Time6 → String
  placeholderUuid : String
  filenameUuid : String

/-! ## The aggregator (`create_default_item`, `generate_rss_feed`) -/

/-- Embedding of `create_default_item` (app.py lines 46-77): the placeholder
item synthesized when no items were found.  `feed_title or f"Feed from
{source_url}"` falls back exactly when the title is the empty string. -/
def create_default_item (env : Env) (source_url feed_title : String) : XmlElement :=
  el "item" [] none [
    el "title" [] (some (if feed_title == "" then "Feed from " ++ source_url else feed_title)) [],
    el "link" [] (some source_url) [],
    el "description" [] (some ("No items found for feed: " ++ source_url)) [],
    el "pubDate" [] (some env.nowGMT) [],
    el "guid" [("isPermaLink", "false")] (some env.placeholderUuid) [],
    el "dc:creator" [] (some "system") []]

/-- Embedding of the normalization of one feedparser entry (app.py lines
136-164, the `else` branch for non-XML content). -/
def mkNormalizedItem (env : Env) (url : String) (e : FPEntry) : XmlElement :=
  let pd : Option Time6 :=
    match e.published_parsed with
    | some t => some t
    | none => e.updated_parsed
  let date_str : String :=
    match pd with
    | some t => env.fmt0000 t
    | none => env.now0000
  el "item" [] none [
    el "title" [] (some (e.title.getD "No Title")) [],
    el "link" [] (some (e.link.getD url)) [],
    el "description" [] (some (e.description.getD "No description")) [],
    el "pubDate" [] (some date_str) [],
    el "dc:creator" [] (some "admin") [],
    el "guid" [("isPermaLink", "false")] (some ("657061 at " ++ url)) []]

/-- The items contributed by one URL (the body of the `for url in urls` loop,
app.py lines 117-170).  Any per-source exception — failed fetch, non-2xx
status, or `ET.fromstring` parse error — is caught by the inner handler at
line 169 and contributes nothing. -/
def process_url (env : Env) (url : String) : List XmlElement :=
  match env.fetch url with
  | none => []
  | some content =>
    if is_xml_content content.bytes then
      match content.xmlParse with
      | none => []
      | some root => findall_item root
    else
      content.fpEntries.map (mkNormalizedItem env url)

/-- All items appended to the channel across the whole batch, in source
order then within-source order.  `items_found` in the source is true exactly
when this list is non-empty. -/
def extractedItems (env : Env) (urls : List String) : List XmlElement :=
  (urls.map (process_url env)).flatten

/-- The generated channel: its metadata elements (app.py lines 96-106) and
its item list. -/
structure Document where
  title : String
  link : String
  description : String
  language : String
  pubDate : String
  items : List XmlElement

/-- Embedding of `generate_rss_feed` (app.py lines 79-189).  The result is
the generated document plus the filename returned to the caller; the
`.error` case models the `IndexError` raised by `urls[0]` (line 94) when the
list is empty — it occurs before the `try` block and so propagates to the
caller. -/
def generate_rss_feed (env : Env) (urls : List String)
    (feed_title : String := "Generated RSS Feed") : Except String (Document × String) :=
  match urls with
  | [] => .error "list index out of range"
  | u0 :: _ =>
    let extracted := extractedItems env urls
    let items :=
      if extracted.isEmpty then [create_default_item env u0 feed_title] else extracted
    .ok ({ title := feed_title
           link := u0
           description := "RSS feed generated from " ++ toString urls.length ++ " URL(s)"
           language := "en"
           pubDate := env.nowGMT
           items := items },
         env.filenameUuid ++ ".xml")

/-! ## The `/generate_feed` endpoint (`create_feed`, app.py lines 192-232) -/

/-- The `url` field of the request payload: a single string or a list. -/
inductive UrlField where
  | single (s : String)
  | list (l : List String)

/-- The JSON payload of `/generate_feed` as read by `create_feed`:
`url = none` models a payload without a `url` key. -/
structure GenRequest where
  url : Option UrlField
  title : Option String

/-- The response of `create_feed`: a success JSON with the feed filename, a
400 validation error, or the 500 produced by the blanket exception
handler. -/
inductive GenResponse where
  | ok (feed_filename : String) (processed_urls : List String)
  | badRequest (error : String)
  | serverError (error : String)
deriving DecidableEq

/-- Embedding of `create_feed` (app.py lines 192-232): payload validation
(`if not data or 'url' not in data`), single-URL normalization, the call to
`generate_rss_feed`, and the blanket `except` that converts any raised
exception into a 500 response carrying `str(e)`. -/
def create_feed (env : Env) (data : Option GenRequest) : GenResponse :=
  match data with
  | none => .badRequest "No URL(s) provided"
  | some d =>
    match d.url with
    | none => .badRequest "No URL(s) provided"
    | some uf =>
      let urls := match uf with
        | .single s => [s]
        | .list l => l
      let feed_title := d.title.getD "Generated RSS Feed"
      match generate_rss_feed env urls feed_title with
      | .ok (_, feed_filename) => .ok feed_filename urls
      | .error e => .serverError e

/-! ## `secure_filename` (werkzeug) and the `/get_feed` endpoint -/

/-- Python `str.split()` whitespace (the characters that can actually occur
here after the separator replacement). -/
def isSpaceChar (c : Char) : Bool :=
  c == ' ' || c == '\t' || c == '\n' || c == '\r' || c == '\x0b' || c == '\x0c'

/-- The characters kept by werkzeug's `_filename_ascii_strip_re`
(`[^A-Za-z0-9_.-]` is removed). -/
def asciiFileChar (c : Char) : Bool :=
  (c.toNat < 128 && c.isAlphanum) || c == '_' || c == '.' || c == '-'

/-- Python `str.split()`: split on whitespace runs, dropping empty tokens.
The accumulator holds the current token reversed. -/
def splitWsAux : List Char → List Char → List (List Char)
  | [], acc => if acc.isEmpty then [] else [acc.reverse]
  | c :: rest, acc =>
    if isSpaceChar c then
      if acc.isEmpty then splitWsAux rest []
      else acc.reverse :: splitWsAux rest []
    else splitWsAux rest (c :: acc)

def splitWs (l : List Char) : List (List Char) := splitWsAux l []

/-- `"_".join(words)`. -/
def joinUnderscore : List (List Char) → List Char
  | [] => []
  | [w] => w
  | w :: ws => w ++ '_' :: joinUnderscore ws

/-- A character stripped by `.strip("._")`. -/
def isStripChar (c : Char) : Bool := c == '.' || c == '_'

/-- `.strip("._")`: remove leading and trailing `.` and `_`. -/
def stripDotsUnders (l : List Char) : List Char :=
  ((l.dropWhile isStripChar).reverse.dropWhile isStripChar).reverse

/-- Embedding of `werkzeug.utils.secure_filename` as called at app.py line
244: replace the path separator by a space, split on whitespace and re-join
with underscores, drop every character outside `[A-Za-z0-9_.-]`, and strip
leading/trailing dots and underscores.  (The NFKD/ascii-ignore step of
werkzeug is subsumed here by the character filter: non-ASCII characters are
dropped.) -/
def secure_filename (s : String) : String :=
  let cs := s.toList.map (fun c => if c == '/' then ' ' else c)
  String.mk (stripDotsUnders ((joinUnderscore (splitWs cs)).filter asciiFileChar))

/-- The stored feed files: filename to file bytes. -/
structure FeedStore where
  files : List (String × String)

/-- `os.path.exists(os.path.join(FEED_STORAGE_DIR, n))` (app.py line 248):
the empty name joins to the storage directory itself, which exists (it is
created at import time), otherwise a file must be stored under `n`. -/
def feed_exists (fs : FeedStore) (n : String) : Bool :=
  n == "" || (fs.files.lookup n).isSome

/-- `send_from_directory(FEED_STORAGE_DIR, n, ...)`: serves the stored
regular file, or raises `NotFound` (modelled as `none`) when the resolved
path is not a file — in particular for the empty name, which resolves to the
directory itself. -/
def send_from_feed_dir (fs : FeedStore) (n : String) : Option String :=
  fs.files.lookup n

/-- The response of `get_feed`: the file body with its mimetype, the 404
JSON, or the 500 JSON produced when the `try` body raises. -/
inductive FeedResponse where
  | ok (body : String) (mimetype : String)
  | notFound
  | serverError
deriving DecidableEq

/-- Embedding of `get_feed` (app.py lines 234-265): sanitize the supplied
filename, answer 404 when the joined path does not exist, otherwise serve
the file; an exception inside the `try` (such as the `NotFound` raised by
`send_from_directory` when the path exists but is not a regular file) is
caught by the blanket handler and yields the 500 response. -/
def get_feed (fs : FeedStore) (filename : String) : FeedResponse :=
  let secure_name := secure_filename filename
  if feed_exists fs secure_name then
    match send_from_feed_dir fs secure_name with
    | some body => .ok body "application/rss+xml"
    | none => .serverError
  else .notFound

/-! ## Observation helpers -/

/-- Bytes of an ASCII string (for ASCII text this equals its UTF-8
encoding). -/
def asciiBytes (s : String) : List Nat := s.toList.map Char.toNat

/-- The item list of a generation result (empty for the error case). -/
def docItems : Except String (Document × String) → List XmlElement
  | .ok (d, _) => d.items
  | .error _ => []

/-- The `<title>` texts of the emitted items, in order. -/
def emittedTitles (r : Except String (Document × String)) : List (Option String) :=
  (docItems r).map (findChildText "title")

/-- The `<link>` texts of the emitted items, in order. -/
def emittedLinks (r : Except String (Document × String)) : List (Option String) :=
  (docItems r).map (findChildText "link")

/-- The `<description>` texts of the emitted items, in order. -/
def emittedDescriptions (r : Except String (Document × String)) : List (Option String) :=
  (docItems r).map (findChildText "description")

/-- The `<guid>` texts of the emitted items, in order. -/
def emittedGuids (r : Except String (Document × String)) : List (Option String) :=
  (docItems r).map (findChildText "guid")

/-- The `<dc:creator>` texts of the emitted items, in order. -/
def emittedCreators (r : Except String (Document × String)) : List (Option String) :=
  (docItems r).map (findChildText "dc:creator")

/-- Characters of a generated feed filename (`uuid.uuid4()` hex digits and
dashes plus the `.xml` suffix): ASCII alphanumerics, dashes and dots. -/
def plainFeedNameChar (c : Char) : Bool :=
  (c.toNat < 128 && c.isAlphanum) || c == '-' || c == '.'

/-- A filename of the shape produced by `generate_rss_feed`
(`{uuid4}.xml`): non-empty, made of plain filename characters, and neither
starting nor ending with a stripped character. -/
def plainFeedName (s : String) : Bool :=
  s.toList.all plainFeedNameChar &&
  (match s.toList.head? with
   | some c => !(isStripChar c)
   | none => false) &&
  (match s.toList.getLast? with
   | some c => !(isStripChar c)
   | none => false)

/-! ## Concrete fixtures for witnesses and counterexamples

The HTTP transport, `ET.fromstring` and `feedparser.parse` are oracles of the
model, so a fixture fixes their answers; the byte fixtures are chosen so that
the embedded classifier takes the branch the corresponding real content
would take. -/

/-- A feedparser entry with all three text fields present. -/
def fpStub : FPEntry :=
  { title := some "t", link := some "http://l", description := some "d",
    published_parsed := none, updated_parsed := none }

/-- A feedparser entry carrying only a title. -/
def fpStub2 : FPEntry :=
  { title := some "t2", link := none, description := none,
    published_parsed := none, updated_parsed := none }

/-- A fixed clock/uuid environment around a given transport. -/
def baseEnv (fetch : String → Option Content) : Env :=
  { fetch := fetch
    nowGMT := "Sun, 12 Oct 2025 09:00:00 GMT"
    now0000 := "Sun, 12 Oct 2025 09:00:00 +0000"
    fmt0000 := fun _ => "Mon, 01 Jan 2024 00:00:00 +0000"
    placeholderUuid := "uuid-p"
    filenameUuid := "uuid-f" }

/-- Every fetch fails (connection refused on all sources). -/
def envFail : Env := baseEnv (fun _ => none)

/-- A non-XML-classified page from which feedparser discovers two entries
(for instance a feed fragment of bare `item` elements, which matches none of
the four signatures). -/
def pageContent2 : Content :=
  { bytes := asciiBytes "<item><title>t</title></item><item><title>t2</title></item>"
    xmlParse := none
    fpEntries := [fpStub, fpStub2] }

def envTwo : Env := baseEnv (fun u => if u == "http://x" then some pageContent2 else none)

/-- An Atom-style feed-rooted document: one `entry`, no `item`. -/
def atomTree : XmlElement :=
  el "feed" [] none [el "entry" [] none [el "title" [] (some "t1") []]]

def atomContent : Content :=
  { bytes := asciiBytes "<feed><entry><title>t1</title></entry></feed>"
    xmlParse := some atomTree
    fpEntries := [{ title := some "t1", link := none, description := none,
                    published_parsed := none, updated_parsed := none }] }

def envAtom : Env := baseEnv (fun u => if u == "http://atom" then some atomContent else none)

/-- An RSS document with two `item` elements. -/
def rssItem1 : XmlElement := el "item" [] none [el "title" [] (some "a1") []]
def rssItem2 : XmlElement := el "item" [] none [el "title" [] (some "a2") []]

def rssTree : XmlElement :=
  el "rss" [("version", "2.0")] none
    [el "channel" [] none [el "title" [] (some "chan") [], rssItem1, rssItem2]]

def rssContent : Content :=
  { bytes := asciiBytes
      "<rss version=\"2.0\"><channel><title>chan</title><item><title>a1</title></item><item><title>a2</title></item></channel></rss>"
    xmlParse := some rssTree
    fpEntries := [] }

def envRss : Env := baseEnv (fun u => if u == "http://rss" then some rssContent else none)

/-- An RSS document whose single `item` element is empty: no title, link or
description. -/
def bareItemTree : XmlElement :=
  el "rss" [] none [el "channel" [] none [el "item" [] none []]]

def bareItemContent : Content :=
  { bytes := asciiBytes "<rss><channel><item></item></channel></rss>"
    xmlParse := some bareItemTree
    fpEntries := [] }

/-- A non-XML-classified source whose discovered entry has a present but
empty title. -/
def emptyTitleEntry : FPEntry :=
  { title := some "", link := some "http://l2", description := some "desc2",
    published_parsed := none, updated_parsed := none }

def emptyTitleContent : Content :=
  { bytes := asciiBytes "<item><title></title><link>http://l2</link></item>"
    xmlParse := none
    fpEntries := [emptyTitleEntry] }

def envC6 : Env := baseEnv (fun u =>
  if u == "http://s1" then some bareItemContent
  else if u == "http://s2" then some emptyTitleContent
  else none)

/-- An RSS document whose `item` carries an `author` but no `dc:creator`. -/
def foreignItem : XmlElement :=
  el "item" [] none [el "title" [] (some "z") [], el "author" [] (some "bob") []]

def foreignTree : XmlElement :=
  el "rss" [] none [el "channel" [] none [foreignItem]]

def foreignContent : Content :=
  { bytes := asciiBytes "<rss><channel><item><title>z</title><author>bob</author></item></channel></rss>"
    xmlParse := some foreignTree
    fpEntries := [] }

def envC10 : Env := baseEnv (fun u => if u == "http://c10" then some foreignContent else none)

/-- A non-XML-classified source with `n` discoverable entries (the byte
fixture is irrelevant to the branch taken; the entry count is the oracle
answer the claim quantifies over). -/
def contentMany (n : Nat) : Content :=
  { bytes := asciiBytes "plain hello page"
    xmlParse := none
    fpEntries := List.replicate n fpStub }

def envMany (n : Nat) : Env := baseEnv (fun _ => some (contentMany n))

/-- One reachable non-XML source with one entry; every other source fails. -/
def goodContent : Content :=
  { bytes := asciiBytes "<item><title>t</title></item>"
    xmlParse := none
    fpEntries := [fpStub] }

def envMix : Env := baseEnv (fun u => if u == "http://good" then some goodContent else none)

/-- A store holding one previously generated feed file. -/
def store1 : FeedStore := ⟨[("deadbeef-1234.xml", "FEEDBYTES")]⟩

/-! ## Lemmas: the classifier matches the spec-side signature predicates -/

theorem searchBy_iff (p : List Char → Bool) (s : List Char) :
    searchBy p s = true ↔ ∃ i, p (s.drop i) = true := by
  induction s with
  | nil => simp [searchBy]
  | cons c rest ih =>
    simp only [searchBy, Bool.or_eq_true, ih]
    constructor
    · rintro (h | ⟨i, h⟩)
      · exact ⟨0, h⟩
      · exact ⟨i + 1, h⟩
    · rintro ⟨i, h⟩
      cases i with
      | zero => exact Or.inl h
      | succ j => exact Or.inr ⟨j, by simpa using h⟩

theorem wbAfter_head (l : List Char) :
    wbAfter l = true ↔ ∀ c, l.head? = some c → isWordChar c = false := by
  cases l with
  | nil => simp [wbAfter]
  | cons c rest => simp [wbAfter]

theorem checkTag_drop_iff (pat s : List Char) (i : Nat) :
    checkTag pat (s.drop i) = true ↔ (OccursAt pat s i ∧ NonWordAt s (i + pat.length)) := by
  unfold checkTag OccursAt NonWordAt
  rw [Bool.and_eq_true, List.isPrefixOf_iff_prefix, List.drop_drop, wbAfter_head]
  constructor
  · rintro ⟨h1, h2⟩
    refine ⟨h1, fun c hc => h2 c ?_⟩
    rw [List.head?_drop]
    exact hc
  · rintro ⟨h1, h2⟩
    refine ⟨h1, fun c hc => h2 c ?_⟩
    rw [List.head?_drop] at hc
    exact hc

theorem hasCloseNoNL_iff (t : List Char) :
    hasCloseNoNL t = true ↔
      ∃ k, ['?', '>'] <+: t.drop k ∧ ∀ m, m < k → t[m]? ≠ some '\n' := by
  induction t with
  | nil =>
    simp only [hasCloseNoNL, List.drop_nil]
    constructor
    · intro h; exact absurd h (by decide)
    · rintro ⟨k, hpre, _⟩
      rcases hpre with ⟨r, hr⟩
      exact absurd hr (by simp)
  | cons c rest ih =>
    rw [hasCloseNoNL]
    by_cases h1 : ['?', '>'].isPrefixOf (c :: rest) = true
    · simp only [h1, if_true]
      constructor
      · intro _
        exact ⟨0, by simpa using List.isPrefixOf_iff_prefix.mp h1, by omega⟩
      · intro _; trivial
    · rw [if_neg h1]
      by_cases h2 : c = '\n'
      · rw [if_pos h2]
        constructor
        · intro h; exact absurd h (by decide)
        · rintro ⟨k, hpre, hnl⟩
          cases k with
          | zero =>
            rw [List.drop_zero] at hpre
            exact absurd (List.isPrefixOf_iff_prefix.mpr hpre) h1
          | succ j =>
            have := hnl 0 (by omega)
            simp [h2] at this
      · rw [if_neg h2]
        rw [ih]
        constructor
        · rintro ⟨k, hpre, hnl⟩
          refine ⟨k + 1, by simpa using hpre, ?_⟩
          intro m hm
          cases m with
          | zero =>
            simp only [List.getElem?_cons_zero]
            intro hc
            exact h2 (Option.some.inj hc)
          | succ j => simpa using hnl j (by omega)
        · rintro ⟨k, hpre, hnl⟩
          cases k with
          | zero =>
            rw [List.drop_zero] at hpre
            exact absurd (List.isPrefixOf_iff_prefix.mpr hpre) h1
          | succ j =>
            refine ⟨j, by simpa using hpre, ?_⟩
            intro m hm
            have := hnl (m + 1) (by omega)
            simpa using this

theorem searchTag_iff (pat s : List Char) :
    searchBy (checkTag pat) s = true ↔ TagSignature pat s := by
  rw [searchBy_iff]
  unfold TagSignature
  exact exists_congr fun i => checkTag_drop_iff pat s i

theorem searchProlog_iff (s : List Char) :
    searchBy checkProlog s = true ↔ PrologSignature s := by
  rw [searchBy_iff]
  unfold PrologSignature OccursAt
  constructor
  · rintro ⟨i, h⟩
    unfold checkProlog at h
    rw [Bool.and_eq_true, List.isPrefixOf_iff_prefix, List.drop_drop] at h
    obtain ⟨hpre, hclose⟩ := h
    rw [hasCloseNoNL_iff] at hclose
    obtain ⟨k, hk1, hk2⟩ := hclose
    rw [List.drop_drop] at hk1
    refine ⟨i, i + 5 + k, hpre, hk1, by omega, ?_⟩
    intro k' h1 h2
    have hg : (List.drop (i + 5) s)[k' - (i + 5)]? = s[k']? := by
      rw [List.getElem?_drop]; congr 1; omega
    rw [← hg]
    exact hk2 (k' - (i + 5)) (by omega)
  · rintro ⟨i, j, hpre, hclose, hij, hnl⟩
    refine ⟨i, ?_⟩
    unfold checkProlog
    rw [Bool.and_eq_true, List.isPrefixOf_iff_prefix, List.drop_drop]
    refine ⟨hpre, ?_⟩
    rw [hasCloseNoNL_iff]
    refine ⟨j - (i + 5), ?_, ?_⟩
    · rw [List.drop_drop]
      have h5 : i + 5 + (j - (i + 5)) = j := by omega
      rw [h5]
      exact hclose
    · intro m hm
      rw [List.getElem?_drop]
      exact hnl (i + 5 + m) (by omega) (by omega)

/-! ## Lemmas: `findall('.//item')` and batch assembly -/

mutual
theorem findall_item_eq_filter (e : XmlElement) :
    findall_item e = (descendants e).filter (fun x => x.tag == "item") := by
  match e with
  | .mk t a tx ch =>
    rw [findall_item, descendants]
    exact findall_itemL_eq_filter ch
theorem findall_itemL_eq_filter (l : XmlList) :
    findall_itemL l = (descendantsL l).filter (fun x => x.tag == "item") := by
  match l with
  | .nil => rfl
  | .cons c cs =>
    rw [findall_itemL, descendantsL, List.filter_cons, List.filter_append,
        ← findall_item_eq_filter c, ← findall_itemL_eq_filter cs]
    by_cases h : c.tag == "item"
    · simp [h]
    · simp [h]
end

theorem flatten_map_eq_of_unit (f : String → List XmlElement) (u : String)
    (hf : f u = []) (l : List String) :
    (l.map f).flatten = ((l.filter (fun v => !(v == u))).map f).flatten := by
  induction l with
  | nil => rfl
  | cons a l ih =>
    rw [List.map_cons, List.flatten_cons, List.filter_cons]
    by_cases h : a == u
    · have hcond : (!(a == u)) = false := by rw [h]; rfl
      simp only [hcond, Bool.false_eq_true, if_false]
      rw [eq_of_beq h, hf, List.nil_append]
      exact ih
    · have h' : (a == u) = false := by
        cases hb : a == u
        · rfl
        · exact absurd hb h
      simp only [h', Bool.not_false, if_true, List.map_cons, List.flatten_cons]
      rw [ih]

/-! ## Claim theorems -/

/-- C1 (counterexample): guids are not unique within one generated Document.
One source classified as non-XML with two discovered entries yields a
document whose two entries carry the identical identifier
`657061 at http://x` — the fixed string of app.py line 164, derived only
from the source URL. -/
theorem C1_counterexample :
    emittedGuids (generate_rss_feed envTwo ["http://x"] "T") =
      [some "657061 at http://x", some "657061 at http://x"] ∧
    (docItems (generate_rss_feed envTwo ["http://x"] "T")).length = 2 := by
  exact ⟨rfl, rfl⟩

/-- C1 (amended): only the fallback placeholder receives a freshly drawn
uuid identifier; every entry emitted by the non-XML normalization branch
carries the fixed, predictable identifier `657061 at {source url}`, shared
by all entries of the same source within a document and across calls. -/
theorem C1_amended_guids (env : Env) (url : String) (e : FPEntry) (u t : String) :
    findChildText "guid" (mkNormalizedItem env url e) = some ("657061 at " ++ url) ∧
    findChildText "guid" (create_default_item env u t) = some env.placeholderUuid := by
  exact ⟨rfl, rfl⟩

/-- C5: the classifier returns STRUCTURED_FEED exactly when the lossily
decoded text matches, case-insensitively, at least one of the four fixed
signatures (XML prolog, `rss` tag, `feed` tag, `channel` element), and OTHER
otherwise; it is a total function on arbitrary byte input (non-UTF-8 bytes
are dropped by the lossy decoding and simply fail to match). -/
theorem C5_classifier_signatures (bs : List Nat) :
    is_xml_content bs = true ↔
      (PrologSignature ((decodeLossy bs).map lowerChar) ∨
       TagSignature ['<', 'r', 's', 's'] ((decodeLossy bs).map lowerChar) ∨
       TagSignature ['<', 'f', 'e', 'e', 'd'] ((decodeLossy bs).map lowerChar) ∨
       TagSignature ['<', 'c', 'h', 'a', 'n', 'n', 'e', 'l'] ((decodeLossy bs).map lowerChar)) := by
  unfold is_xml_content
  simp only [Bool.or_eq_true, searchTag_iff, searchProlog_iff, or_assoc]

/-- C9 (counterexample): an empty source list is neither rejected by the
boundary validation (which only checks for a missing `url` key) nor answered
with a placeholder document: `urls[0]` raises an `IndexError` before the
`try` block of `generate_rss_feed`, and the endpoint's blanket handler turns
it into a 500 failure response. -/
theorem C9_counterexample :
    generate_rss_feed envFail ([] : List String) "T" = .error "list index out of range" ∧
    create_feed envFail (some { url := some (.list []), title := some "T" }) =
      .serverError "list index out of range" := by
  exact ⟨rfl, rfl⟩

/-- C9 (amended): an empty source list never escapes as an unhandled fault:
`generate_rss_feed` fails with the index error, and the endpoint converts it
into a handled 500 failure response (not a validation error, not a
placeholder document). -/
theorem C9_amended_empty_list (env : Env) (t : String) (title : Option String) :
    generate_rss_feed env [] t = .error "list index out of range" ∧
    create_feed env (some { url := some (.list []), title := title }) =
      .serverError "list index out of range" := by
  exact ⟨rfl, rfl⟩

/-- C10 (counterexample): an entry copied verbatim from an XML-classified
source carries whatever attribution the source had — here none at all (an
`author` element instead of `dc:creator`), so the emitted entry's creator
label is neither `admin` nor `system`. -/
theorem C10_counterexample :
    docItems (generate_rss_feed envC10 ["http://c10"] "T") = [foreignItem] ∧
    emittedCreators (generate_rss_feed envC10 ["http://c10"] "T") = [none] ∧
    findChildText "author" foreignItem = some "bob" := by
  exact ⟨rfl, rfl, rfl⟩

/-- C10 (amended): the two synthesized entry kinds carry the two fixed
attribution constants — `admin` for entries normalized from a non-XML
source, `system` for the fallback placeholder — while verbatim-copied items
keep their original attribution, which may be arbitrary or absent. -/
theorem C10_amended_creators (env : Env) (url : String) (e : FPEntry) (u t : String) :
    findChildText "dc:creator" (mkNormalizedItem env url e) = some "admin" ∧
    findChildText "dc:creator" (create_default_item env u t) = some "system" := by
  exact ⟨rfl, rfl⟩

/-- C2: when processing completes with zero extracted entries, the generated
document contains exactly one placeholder entry anchored to the first
source, with title the supplied title (or `Feed from {first source}` when
the title is empty), link the first source, the documented description, the
current-time publication timestamp, and the freshly drawn uuid identifier;
moreover every successfully generated document contains at least one
entry. -/
theorem C2_fallback_placeholder (env : Env) (u0 : String) (rest : List String) (t : String)
    (hempty : extractedItems env (u0 :: rest) = []) :
    generate_rss_feed env (u0 :: rest) t =
      .ok ({ title := t
             link := u0
             description := "RSS feed generated from " ++ toString (u0 :: rest).length ++ " URL(s)"
             language := "en"
             pubDate := env.nowGMT
             items := [create_default_item env u0 t] }, env.filenameUuid ++ ".xml") ∧
    findChildText "title" (create_default_item env u0 t) =
      some (if t == "" then "Feed from " ++ u0 else t) ∧
    findChildText "link" (create_default_item env u0 t) = some u0 ∧
    findChildText "description" (create_default_item env u0 t) =
      some ("No items found for feed: " ++ u0) ∧
    findChildText "pubDate" (create_default_item env u0 t) = some env.nowGMT ∧
    findChildText "guid" (create_default_item env u0 t) = some env.placeholderUuid ∧
    ∀ (env2 : Env) (urls : List String) (t2 : String) (d : Document) (fn : String),
      generate_rss_feed env2 urls t2 = .ok (d, fn) → d.items ≠ [] := by
  refine ⟨?_, rfl, rfl, rfl, rfl, rfl, ?_⟩
  · unfold generate_rss_feed
    rw [hempty]
    rfl
  · intro env2 urls t2 d fn hok
    cases urls with
    | nil => exact absurd hok (by simp [generate_rss_feed])
    | cons v vs =>
      unfold generate_rss_feed at hok
      simp only [Except.ok.injEq, Prod.mk.injEq] at hok
      obtain ⟨hd, -⟩ := hok
      rw [← hd]
      by_cases he : (extractedItems env2 (v :: vs)).isEmpty
      · simp [he]
      · simp only [he, if_false]
        intro hnil
        rw [List.isEmpty_iff] at he
        exact he hnil

/-- C2 (witness): a concrete batch whose single source fails to fetch yields
the single-placeholder document. -/
theorem C2_fallback_placeholder_witness :
    extractedItems envFail ["http://x"] = [] ∧
    generate_rss_feed envFail ["http://x"] "T" =
      .ok ({ title := "T"
             link := "http://x"
             description := "RSS feed generated from 1 URL(s)"
             language := "en"
             pubDate := "Sun, 12 Oct 2025 09:00:00 GMT"
             items := [create_default_item envFail "http://x" "T"] }, "uuid-f.xml") :=
  ⟨rfl, (C2_fallback_placeholder envFail "http://x" [] "T" rfl).1⟩

/-- C3: a per-source failure — failed fetch (network error, timeout, non-2xx
status) or a parse failure of XML-classified content — contributes zero
entries for that source, never prevents the batch from succeeding, and
leaves the contribution of all other sources unchanged (the batch result
equals the result with the failing source removed). -/
theorem C3_per_source_isolation (env : Env) (urls : List String) (t u : String)
    (hmem : u ∈ urls)
    (hfail : env.fetch u = none ∨
      ∃ c, env.fetch u = some c ∧ is_xml_content c.bytes = true ∧ c.xmlParse = none) :
    process_url env u = [] ∧
    (∃ d fn, generate_rss_feed env urls t = .ok (d, fn)) ∧
    extractedItems env urls =
      extractedItems env (urls.filter (fun v => !(v == u))) := by
  have h1 : process_url env u = [] := by
    rcases hfail with hnone | ⟨c, hc, hx, hp⟩
    · unfold process_url
      rw [hnone]
    · unfold process_url
      rw [hc]
      simp only [hx, if_true, hp]
  refine ⟨h1, ?_, ?_⟩
  · cases urls with
    | nil => exact absurd hmem (by simp)
    | cons v vs => exact ⟨_, _, rfl⟩
  · unfold extractedItems
    exact flatten_map_eq_of_unit (process_url env) u h1 urls

/-- C3 (witness): a concrete batch with one refused source and one working
source succeeds, the refused source contributing nothing. -/
theorem C3_per_source_isolation_witness :
    envMix.fetch "http://bad" = none ∧
    ("http://bad" ∈ ["http://bad", "http://good"]) ∧
    process_url envMix "http://bad" = [] ∧
    (∃ d fn, generate_rss_feed envMix ["http://bad", "http://good"] "T" = .ok (d, fn)) ∧
    extractedItems envMix ["http://bad", "http://good"] =
      extractedItems envMix
        (["http://bad", "http://good"].filter (fun v => !(v == "http://bad"))) := by
  have h := C3_per_source_isolation envMix ["http://bad", "http://good"] "T" "http://bad"
    (by simp) (Or.inl rfl)
  exact ⟨rfl, by simp, h.1, h.2.1, h.2.2⟩

/-- C4 (counterexample): a feed-rooted (Atom-style) document classified
STRUCTURED_FEED contains one `entry` element, but the generated document
contains none of it: `findall('.//item')` only collects elements tagged
`item`, so the source contributes zero entries and the batch falls back to
the placeholder. -/
theorem C4_counterexample :
    ((descendants atomTree).filter (fun x => x.tag == "entry")).length = 1 ∧
    is_xml_content atomContent.bytes = true ∧
    process_url envAtom "http://atom" = [] ∧
    docItems (generate_rss_feed envAtom ["http://atom"] "T") =
      [create_default_item envAtom "http://atom" "T"] := by
  exact ⟨rfl, rfl, rfl, rfl⟩

/-- C4 (amended): for a source classified STRUCTURED_FEED whose content
parses, exactly the elements tagged `item` — at any depth, in document
order, count preserved — are copied verbatim into the output; Atom `entry`
elements are not collected. -/
theorem C4_amended_item_copy (env : Env) (url : String) (c : Content) (root : XmlElement)
    (hfetch : env.fetch url = some c) (hxml : is_xml_content c.bytes = true)
    (hparse : c.xmlParse = some root) :
    process_url env url = (descendants root).filter (fun x => x.tag == "item") := by
  unfold process_url
  rw [hfetch]
  simp only [hxml, if_true, hparse]
  exact findall_item_eq_filter root

/-- C4 (witness): a concrete RSS source with two `item` elements has both
copied, in order. -/
theorem C4_amended_item_copy_witness :
    envRss.fetch "http://rss" = some rssContent ∧
    is_xml_content rssContent.bytes = true ∧
    rssContent.xmlParse = some rssTree ∧
    process_url envRss "http://rss" =
      (descendants rssTree).filter (fun x => x.tag == "item") ∧
    (descendants rssTree).filter (fun x => x.tag == "item") = [rssItem1, rssItem2] :=
  ⟨rfl, rfl, rfl,
   C4_amended_item_copy envRss "http://rss" rssContent rssTree rfl rfl rfl, rfl⟩

/-- C6 (counterexample): emitted entries need not have non-empty title, link
and description.  A verbatim-copied `item` element with no children yields
an entry with none of the three fields, and a normalized entry whose source
title is present but empty keeps the empty title (the default applies only
when the field is absent). -/
theorem C6_counterexample :
    docItems (generate_rss_feed envC6 ["http://s1", "http://s2"] "T") =
      [el "item" [] none [], mkNormalizedItem envC6 "http://s2" emptyTitleEntry] ∧
    emittedTitles (generate_rss_feed envC6 ["http://s1", "http://s2"] "T") =
      [none, some ""] ∧
    emittedLinks (generate_rss_feed envC6 ["http://s1", "http://s2"] "T") =
      [none, some "http://l2"] ∧
    emittedDescriptions (generate_rss_feed envC6 ["http://s1", "http://s2"] "T") =
      [none, some "desc2"] := by
  exact ⟨rfl, rfl, rfl, rfl⟩

/-- C6 (amended): entries synthesized by the normalization branch always
carry title, link and description elements, equal to the source field when
present (even if empty) and to the documented defaults `No Title`, the
source URL, and `No description` when absent; the fallback placeholder
carries a non-empty title, the first source as link, and a non-empty
description; verbatim-copied items retain only what the source provided. -/
theorem C6_amended_field_defaults (env : Env) (url : String) (e : FPEntry) (u t : String) :
    (findChildText "title" (mkNormalizedItem env url e) = some (e.title.getD "No Title") ∧
     findChildText "link" (mkNormalizedItem env url e) = some (e.link.getD url) ∧
     findChildText "description" (mkNormalizedItem env url e) =
       some (e.description.getD "No description")) ∧
    (findChildText "title" (create_default_item env u t) ≠ some "" ∧
     findChildText "title" (create_default_item env u t) ≠ none ∧
     findChildText "link" (create_default_item env u t) = some u ∧
     findChildText "description" (create_default_item env u t) =
       some ("No items found for feed: " ++ u)) := by
  refine ⟨⟨rfl, rfl, rfl⟩, ?_, by simp [create_default_item, findChildText, el,
    XmlList.ofList, findChildTextL, XmlElement.children, XmlElement.tag, XmlElement.text],
    rfl, rfl⟩
  · have hv : findChildText "title" (create_default_item env u t) =
        some (if t == "" then "Feed from " ++ u else t) := rfl
    rw [hv]
    intro h
    have h' := Option.some.inj h
    by_cases ht : t == ""
    · rw [if_pos ht] at h'
      have := congrArg String.length h'
      rw [String.length_append] at this
      simp at this
      exact absurd this.1 (by decide)
    · rw [if_neg ht] at h'
      exact ht (by rw [h']; decide)

/-- C8 (counterexample): no fixed per-source cap exists.  For every
candidate cap, a source classified OTHER with cap + 1 discoverable entries
produces cap + 1 output entries, exceeding the cap. -/
theorem C8_counterexample :
    ¬ ∃ cap : Nat, ∀ (env : Env) (url : String) (c : Content),
        env.fetch url = some c → is_xml_content c.bytes = false →
        ((c.fpEntries.length ≤ cap →
            (process_url env url).length = c.fpEntries.length) ∧
         (cap < c.fpEntries.length → (process_url env url).length ≤ cap)) := by
  rintro ⟨cap, h⟩
  have hb0 : is_xml_content (asciiBytes "plain hello page") = false := by decide
  have hb : is_xml_content (contentMany (cap + 1)).bytes = false := hb0
  have hfetch : (envMany (cap + 1)).fetch "u" = some (contentMany (cap + 1)) := rfl
  have hflen : (contentMany (cap + 1)).fpEntries.length = cap + 1 := by
    simp [contentMany]
  have hlen : (process_url (envMany (cap + 1)) "u").length = cap + 1 := by
    unfold process_url
    rw [hfetch]
    simp only [hb, if_false]
    simp [contentMany]
  have h2 := (h (envMany (cap + 1)) "u" (contentMany (cap + 1)) hfetch hb).2 (by omega)
  omega

/-- C8 (amended): no cap is applied — for every source classified OTHER the
number of output entries equals the number of discoverable entries, for
every entry count. -/
theorem C8_amended_no_cap (env : Env) (url : String) (c : Content)
    (hfetch : env.fetch url = some c) (hother : is_xml_content c.bytes = false) :
    (process_url env url).length = c.fpEntries.length := by
  unfold process_url
  rw [hfetch]
  simp only [hother, if_false]
  exact List.length_map c.fpEntries (mkNormalizedItem env url)

/-- C8 (witness): a concrete OTHER source with two discoverable entries
yields exactly two output entries. -/
theorem C8_amended_no_cap_witness :
    (envMany 2).fetch "u" = some (contentMany 2) ∧
    is_xml_content (contentMany 2).bytes = false ∧
    (process_url (envMany 2) "u").length = (contentMany 2).fpEntries.length :=
  ⟨rfl, rfl, C8_amended_no_cap (envMany 2) "u" (contentMany 2) rfl rfl⟩

/-! ## Lemmas: `secure_filename` sanitization -/

theorem dropWhile_first_false {α : Type} (p : α → Bool) (l : List α) (c : α) (t : List α)
    (h : l.dropWhile p = c :: t) : p c = false := by
  induction l with
  | nil => simp [List.dropWhile] at h
  | cons a l ih =>
    rw [List.dropWhile_cons] at h
    by_cases hp : p a
    · rw [if_pos hp] at h
      exact ih h
    · rw [if_neg hp] at h
      obtain ⟨rfl, -⟩ := List.cons.inj h
      cases hq : p a
      · rfl
      · exact absurd hq hp

theorem stripDotsUnders_subset (l : List Char) : ∀ c ∈ stripDotsUnders l, c ∈ l := by
  intro c hc
  unfold stripDotsUnders at hc
  rw [List.mem_reverse] at hc
  have h1 := (List.dropWhile_sublist isStripChar).subset hc
  rw [List.mem_reverse] at h1
  exact (List.dropWhile_sublist isStripChar).subset h1

theorem stripDotsUnders_reverse_head (l : List Char) (c : Char) (t : List Char)
    (h : (stripDotsUnders l).reverse = c :: t) : isStripChar c = false := by
  unfold stripDotsUnders at h
  rw [List.reverse_reverse] at h
  exact dropWhile_first_false _ _ _ _ h

theorem map_eq_self_of_mem {α : Type} (f : α → α) (l : List α)
    (h : ∀ c ∈ l, f c = c) : l.map f = l := by
  induction l with
  | nil => rfl
  | cons a l ih =>
    rw [List.map_cons, h a (by simp), ih (fun c hc => h c (by simp [hc]))]

theorem splitWsAux_no_space (l : List Char) :
    ∀ acc : List Char, (∀ c ∈ l, isSpaceChar c = false) →
      splitWsAux l acc =
        if (acc.reverse ++ l).isEmpty then [] else [acc.reverse ++ l] := by
  induction l with
  | nil =>
    intro acc _
    simp [splitWsAux, List.isEmpty_iff]
  | cons c rest ih =>
    intro acc h
    rw [splitWsAux]
    rw [if_neg (by simp [h c (by simp)])]
    rw [ih (c :: acc) (fun d hd => h d (by simp [hd]))]
    simp [List.isEmpty_iff]

theorem dropWhile_id_of_head {α : Type} (p : α → Bool) (l : List α)
    (h : ∀ c t, l = c :: t → p c = false) : l.dropWhile p = l := by
  cases l with
  | nil => rfl
  | cons a t =>
    rw [List.dropWhile_cons, if_neg]
    rw [h a t rfl]
    simp

/-- `secure_filename` is the identity on names of the shape the generator
produces, so a reference issued by a prior generation resolves to itself. -/
theorem secure_filename_fixpoint (s : String) (h : plainFeedName s = true) :
    secure_filename s = s := by
  unfold plainFeedName at h
  rw [Bool.and_eq_true, Bool.and_eq_true] at h
  obtain ⟨⟨hall, hhead⟩, hlast⟩ := h
  rw [List.all_eq_true] at hall
  have hns : ∀ c ∈ s.toList, c ≠ '/' ∧ isSpaceChar c = false ∧ asciiFileChar c = true := by
    intro c hc
    have hpf := hall c hc
    refine ⟨?_, ?_, ?_⟩
    · rintro rfl
      exact absurd hpf (by decide)
    · cases hq : isSpaceChar c
      · rfl
      · exfalso
        simp only [isSpaceChar, Bool.or_eq_true, beq_iff_eq] at hq
        rcases hq with ((((h1 | h1) | h1) | h1) | h1) | h1 <;> subst h1 <;>
          exact absurd hpf (by decide)
    · simp only [plainFeedNameChar, Bool.or_eq_true, Bool.and_eq_true] at hpf
      simp only [asciiFileChar, Bool.or_eq_true, Bool.and_eq_true]
      tauto
  have hsnil : s.toList ≠ [] := by
    intro hs
    rw [hs] at hhead
    simp at hhead
  have h1 : s.toList.map (fun c => if c == '/' then ' ' else c) = s.toList :=
    map_eq_self_of_mem _ _ (fun c hc => if_neg (fun hq => (hns c hc).1 (eq_of_beq hq)))
  have h2 : splitWs s.toList = [s.toList] := by
    unfold splitWs
    rw [splitWsAux_no_space s.toList [] (fun c hc => (hns c hc).2.1)]
    rw [List.reverse_nil, List.nil_append, if_neg]
    intro hq
    exact hsnil (List.isEmpty_iff.mp hq)
  have h4 : s.toList.filter asciiFileChar = s.toList :=
    List.filter_eq_self.mpr (fun c hc => (hns c hc).2.2)
  have h5 : stripDotsUnders s.toList = s.toList := by
    unfold stripDotsUnders
    have hl : s.toList.dropWhile isStripChar = s.toList := by
      apply dropWhile_id_of_head
      intro c t hct
      rw [hct] at hhead
      simpa using hhead
    rw [hl]
    have hr : s.toList.reverse.dropWhile isStripChar = s.toList.reverse := by
      apply dropWhile_id_of_head
      intro c t hct
      have hg : s.toList.getLast? = some c := by
        rw [← List.head?_reverse, hct]
        rfl
      rw [hg] at hlast
      simpa using hlast
    rw [hr, List.reverse_reverse]
  unfold secure_filename
  rw [h1]
  show String.mk (stripDotsUnders ((joinUnderscore (splitWs s.toList)).filter asciiFileChar)) = s
  rw [h2]
  show String.mk (stripDotsUnders (s.toList.filter asciiFileChar)) = s
  rw [h4, h5]
  cases s
  rfl

/-- Every character of a sanitized filename is a plain ASCII filename
character; in particular no path separator survives sanitization. -/
theorem secure_filename_chars (s : String) :
    ∀ c ∈ (secure_filename s).toList, asciiFileChar c = true := by
  intro c hc
  unfold secure_filename at hc
  have hc3 := stripDotsUnders_subset _ c hc
  exact (List.mem_filter.mp hc3).2

theorem secure_filename_ne_dotdot (s : String) : secure_filename s ≠ ".." := by
  intro h
  have h1 : (secure_filename s).toList.reverse = ['.', '.'] := by rw [h]; rfl
  unfold secure_filename at h1
  exact absurd (stripDotsUnders_reverse_head _ _ _ h1) (by decide)

theorem secure_filename_ne_dot (s : String) : secure_filename s ≠ "." := by
  intro h
  have h1 : (secure_filename s).toList.reverse = ['.'] := by rw [h]; rfl
  unfold secure_filename at h1
  exact absurd (stripDotsUnders_reverse_head _ _ _ h1) (by decide)

/-- C7 (counterexample): a reference that sanitizes to the empty string —
such as `..` — does not resolve to any stored artifact, yet retrieval
answers the 500 error response instead of not-found: the empty name joins to
the storage directory itself, which passes the existence check, and serving
it raises inside the `try`. -/
theorem C7_counterexample :
    secure_filename ".." = "" ∧
    store1.files.lookup "" = none ∧
    get_feed store1 ".." = .serverError ∧
    get_feed store1 ".." ≠ .notFound := ⟨rfl, rfl, rfl, by decide⟩

/-- C7 (amended): the reference is sanitized before any resolution — the
sanitized name consists only of plain filename characters (hence contains no
path separator) and is never `..` or `.`, so resolution cannot leave the
storage directory; a reference whose sanitized form is non-empty and not
stored yields not-found; a stored reference is served with the
syndication-feed content type, and generated-shape names are fixed points of
sanitization; only a reference sanitizing to the empty string is instead
answered with the 500 error response (per the counterexample). -/
theorem C7_amended_retrieval (fs : FeedStore) (filename : String) :
    (∀ c ∈ (secure_filename filename).toList, asciiFileChar c = true) ∧
    secure_filename filename ≠ ".." ∧
    secure_filename filename ≠ "." ∧
    (secure_filename filename ≠ "" →
      fs.files.lookup (secure_filename filename) = none →
      get_feed fs filename = .notFound) ∧
    (∀ body, fs.files.lookup (secure_filename filename) = some body →
      get_feed fs filename = .ok body "application/rss+xml") ∧
    (plainFeedName filename = true → secure_filename filename = filename) := by
  refine ⟨secure_filename_chars filename, secure_filename_ne_dotdot filename,
    secure_filename_ne_dot filename, ?_, ?_, secure_filename_fixpoint filename⟩
  · intro hne hmiss
    simp only [get_feed, feed_exists, send_from_feed_dir]
    rw [hmiss]
    rw [if_neg]
    simp only [Bool.or_eq_true, beq_iff_eq, Option.isSome_none]
    rintro (h | h)
    · exact hne h
    · exact absurd h (by decide)
  · intro body hhit
    simp only [get_feed, feed_exists, send_from_feed_dir]
    rw [hhit]
    rw [if_pos (by simp)]

/-- C7 (witness): concrete retrievals — a traversal reference is sanitized
to a separator-free name, an unknown reference answers not-found, and a
stored generated-shape reference is served with the rss mimetype. -/
theorem C7_amended_retrieval_witness :
    (∀ c ∈ (secure_filename "../../etc/passwd").toList, asciiFileChar c = true) ∧
    secure_filename "../../etc/passwd" ≠ ".." ∧
    (secure_filename "nope.xml" ≠ "" ∧
      store1.files.lookup (secure_filename "nope.xml") = none ∧
      get_feed store1 "nope.xml" = .notFound) ∧
    (store1.files.lookup (secure_filename "deadbeef-1234.xml") = some "FEEDBYTES" ∧
      get_feed store1 "deadbeef-1234.xml" = .ok "FEEDBYTES" "application/rss+xml") ∧
    (plainFeedName "deadbeef-1234.xml" = true ∧
      secure_filename "deadbeef-1234.xml" = "deadbeef-1234.xml") :=
  ⟨(C7_amended_retrieval store1 "../../etc/passwd").1,
   (C7_amended_retrieval store1 "../../etc/passwd").2.1,
   ⟨by decide, rfl,
    (C7_amended_retrieval store1 "nope.xml").2.2.2.1 (by decide) rfl⟩,
   ⟨rfl, (C7_amended_retrieval store1 "deadbeef-1234.xml").2.2.2.2.1 "FEEDBYTES" rfl⟩,
   ⟨by decide, (C7_amended_retrieval store1 "deadbeef-1234.xml").2.2.2.2.2 (by decide)⟩⟩

/-- C6 (witness): a concrete normalized entry with absent link and
description receives the documented defaults, and a concrete placeholder
title is non-empty. -/
theorem C6_amended_field_defaults_witness :
    findChildText "title" (mkNormalizedItem envFail "http://x" fpStub2) = some "t2" ∧
    findChildText "link" (mkNormalizedItem envFail "http://x" fpStub2) = some "http://x" ∧
    findChildText "description" (mkNormalizedItem envFail "http://x" fpStub2) =
      some "No description" ∧
    findChildText "title" (create_default_item envFail "http://x" "T") ≠ some "" :=
  ⟨(C6_amended_field_defaults envFail "http://x" fpStub2 "http://x" "T").1.1,
   (C6_amended_field_defaults envFail "http://x" fpStub2 "http://x" "T").1.2.1,
   (C6_amended_field_defaults envFail "http://x" fpStub2 "http://x" "T").1.2.2,
   (C6_amended_field_defaults envFail "http://x" fpStub2 "http://x" "T").2.1⟩
